import Mathlib

/-!
Verification development for the conversation search-and-ingestion engine of
the chatgpt-web-app repository.

The Python sources embedded here are
  backend/services/file_processor.py  (export parsing / ingestion), and
  backend/services/search.py          (lexical / semantic / hybrid retrieval
                                       and rank fusion).

Modelling conventions:
  - Parsed JSON documents are values of the inductive type `JVal`, mirroring
    the result of Python `json.loads` (dicts become association lists in key
    order, numbers are split into `int` and `float` as CPython does).
  - Python floats are modelled by exact rationals `ℚ`.
  - `datetime` objects are modelled by `PyDateTime`: the represented instant
    as rational seconds since the Unix epoch (naive values are the UTC wall
    clock `utcfromtimestamp` produces), plus the aware/naive flag.
    Comparing a naive with an aware datetime raises `TypeError` in Python;
    the model returns `none` for such comparisons and the ingestion functions
    propagate this as an error, as the uncaught exception does in the source.
  - Database rows live in a `Store`; `uuid4` is determinised as a counter,
    which only renames rows.  SQLAlchemy queries are modelled as list
    operations over the store; the full-text engine's ranked output is an
    input parameter of the retrieval functions (it is an external collaborator
    in the spec's sense).
  - Python `set` iteration order (used when fusing result ids) is a hash
    artefact; the model enumerates lexical ids first, then the remaining
    semantic ids, each in first-occurrence order.
-/

set_option maxRecDepth 16000
set_option allowUnsafeReducibility true
attribute [semireducible] Rat.add Rat.sub Rat.mul Rat.inv Rat.ofScientific

/-- A parsed JSON value, as produced by Python `json.loads`. -/
inductive JVal where
  | null : JVal
  | bool : Bool → JVal
  | int : Int → JVal
  | float : ℚ → JVal
  | str : String → JVal
  | arr : List JVal → JVal
  | obj : List (String × JVal) → JVal
deriving Inhabited

/-- Python truthiness of a JSON value: `None`, `False`, `0`, `0.0`, `""`,
`[]` and `\x7b\x7d` are falsy, everything else truthy. -/
def truthy : JVal → Bool
  | .null => false
  | .bool b => b
  | .int n => n ≠ 0
  | .float q => q ≠ 0
  | .str s => s ≠ ""
  | .arr l => !l.isEmpty
  | .obj l => !l.isEmpty

/-- `a or b` on JSON values: the first operand when truthy, else the second. -/
def pyOr (a b : JVal) : JVal := if truthy a then a else b

/-- Dictionary lookup on an object's association list (keys of a parsed JSON
dict are unique, so first match suffices). -/
def jlookup (l : List (String × JVal)) (k : String) : Option JVal :=
  (l.find? (fun p => p.1 = k)).map (·.2)

/-- `d.get(k)`: `None` default.  On non-dict values this model returns `null`;
the sources only call it on values checked with `isinstance(·, dict)`. -/
def jget (v : JVal) (k : String) : JVal :=
  match v with
  | .obj l => (jlookup l k).getD .null
  | _ => .null

/-- `d.get(k, default)`. -/
def jgetD (v : JVal) (k : String) (dflt : JVal) : JVal :=
  match v with
  | .obj l => (jlookup l k).getD dflt
  | _ => dflt

/-- Whether the value is a Python dict (`isinstance(v, dict)`). -/
def JVal.isObj : JVal → Bool
  | .obj _ => true
  | _ => false

/-- Whether the value is a Python list (`isinstance(v, list)`). -/
def JVal.isArr : JVal → Bool
  | .arr _ => true
  | _ => false

mutual
/-- Python `repr` of a JSON value (used by `str` inside containers).
`repr` of floats and the escaping of quotes inside strings are simplified;
no claim evaluates those cases. -/
def pyRepr : JVal → String
  | .null => "None"
  | .bool b => cond b "True" "False"
  | .int n => toString n
  | .float q => toString q
  | .str s =>
      String.singleton (Char.ofNat 39) ++ s ++ String.singleton (Char.ofNat 39)
  | .arr l => "[" ++ String.intercalate ", " (pyReprList l) ++ "]"
  | .obj l =>
      String.singleton (Char.ofNat 123)
        ++ String.intercalate ", " (pyReprPairs l)
        ++ String.singleton (Char.ofNat 125)

def pyReprList : List JVal → List String
  | [] => []
  | x :: xs => pyRepr x :: pyReprList xs

def pyReprPairs : List (String × JVal) → List String
  | [] => []
  | (k, v) :: xs =>
      (String.singleton (Char.ofNat 39) ++ k ++ String.singleton (Char.ofNat 39)
        ++ ": " ++ pyRepr v) :: pyReprPairs xs
end

/-- Python `str()` of a JSON value: strings pass through unquoted, scalars
and containers render as their `repr`. -/
def pyStr : JVal → String
  | .str s => s
  | v => pyRepr v

/-- Python iteration over a value: lists yield their items, strings their
characters, dicts their keys; other values raise `TypeError` (`none`). -/
def pyIter : JVal → Option (List JVal)
  | .arr l => some l
  | .str s => some (s.data.map (fun c => .str (String.singleton c)))
  | .obj l => some (l.map (fun p => .str p.1))
  | _ => none

/-- Number of whitespace-separated tokens of a character list, i.e. the
number of maximal non-whitespace runs — `len(s.split())` in Python. -/
def countWordsAux : List Char → Bool → ℕ
  | [], _ => 0
  | c :: cs, inWord =>
      if c.isWhitespace then countWordsAux cs false
      else (if inWord then 0 else 1) + countWordsAux cs true

/-- `len(content.split())`: whitespace-token count of a string. -/
def countWords (s : String) : ℕ := countWordsAux s.data false

/-- A Python `datetime`: the instant as rational seconds since the Unix epoch
(for naive values, the UTC wall clock), and whether the value is
timezone-aware. -/
structure PyDateTime where
  sec : ℚ
  aware : Bool
deriving Repr, DecidableEq, Inhabited

/-- `datetime.utcfromtimestamp`: a naive UTC datetime, raising (`none`) for
epochs outside the representable year range 1..9999. -/
def utcfromtimestamp (q : ℚ) : Option PyDateTime :=
  if -62135596800 ≤ q ∧ q < 253402300800 then some ⟨q, false⟩ else none

/-- `a < b` on datetimes.  Python compares naive with naive and aware with
aware; a mixed comparison raises `TypeError`, modelled as `none`. -/
def pyLtDT (a b : PyDateTime) : Option Bool :=
  if a.aware = b.aware then some (decide (a.sec < b.sec)) else none

/-- `a > b` on datetimes, with the same `TypeError` behaviour. -/
def pyGtDT (a b : PyDateTime) : Option Bool := pyLtDT b a

/-- Leap-year test of the proleptic Gregorian calendar. -/
def isLeapYear (y : Int) : Bool :=
  (y % 4 = 0 && y % 100 ≠ 0) || y % 400 = 0

/-- Number of days in a month. -/
def daysInMonth (y m : Int) : Int :=
  if m = 2 then (if isLeapYear y then 29 else 28)
  else if m = 4 ∨ m = 6 ∨ m = 9 ∨ m = 11 then 30
  else 31

/-- Days from 1970-01-01 to the given civil date (standard era-based
conversion). -/
def daysFromCivil (y m d : Int) : Int :=
  let y' := if m ≤ 2 then y - 1 else y
  let era := (if 0 ≤ y' then y' else y' - 399) / 400
  let yoe := y' - era * 400
  let mAdj := if 2 < m then m - 3 else m + 9
  let doy := (153 * mAdj + 2) / 5 + d - 1
  let doe := yoe * 365 + yoe / 4 - yoe / 100 + doy
  era * 146097 + doe - 719468

/-- Read one decimal digit. -/
def digVal (c : Char) : Option ℕ :=
  if c.isDigit then some (c.toNat - 48) else none

/-- Read exactly two decimal digits. -/
def read2 : List Char → Option (ℕ × List Char)
  | c1 :: c2 :: rest => do
      let d1 ← digVal c1
      let d2 ← digVal c2
      pure (10 * d1 + d2, rest)
  | _ => none

/-- Read exactly four decimal digits. -/
def read4 : List Char → Option (ℕ × List Char)
  | c1 :: c2 :: c3 :: c4 :: rest => do
      let d1 ← digVal c1
      let d2 ← digVal c2
      let d3 ← digVal c3
      let d4 ← digVal c4
      pure (1000 * d1 + 100 * d2 + 10 * d3 + d4, rest)
  | _ => none

/-- Fractional seconds: a dot followed by one to six digits. -/
def readFrac : List Char → Option (ℚ × List Char)
  | '.' :: rest =>
      let digs := rest.takeWhile Char.isDigit
      let rest' := rest.dropWhile Char.isDigit
      if 1 ≤ digs.length ∧ digs.length ≤ 6 then
        let n : ℕ := digs.foldl (fun acc c => 10 * acc + (c.toNat - 48)) 0
        some ((n : ℚ) / ((10 ^ digs.length : ℕ) : ℚ), rest')
      else none
  | _ => none

/-- Time of day `HH[:MM[:SS[.ffffff]]]`, returned as seconds. -/
def parseTimePart (cs : List Char) : Option (ℚ × List Char) := do
  let (hh, r1) ← read2 cs
  if hh ≥ 24 then none else
  match r1 with
  | ':' :: r2 => do
      let (mm, r3) ← read2 r2
      if mm ≥ 60 then none else
      match r3 with
      | ':' :: r4 => do
          let (ss, r5) ← read2 r4
          if ss ≥ 60 then none else
          match readFrac r5 with
          | some (f, r6) => pure (((hh * 3600 + mm * 60 + ss : ℕ) : ℚ) + f, r6)
          | none => pure (((hh * 3600 + mm * 60 + ss : ℕ) : ℚ), r5)
      | _ => pure (((hh * 3600 + mm * 60 : ℕ) : ℚ), r3)
  | _ => pure (((hh * 3600 : ℕ) : ℚ), r1)

/-- UTC offset `±HH:MM[:SS]`, returned as signed seconds. -/
def parseOffsetPart (cs : List Char) : Option (ℚ × List Char) := do
  let (sgn, r0) ←
    match cs with
    | '+' :: r => some ((1 : Int), r)
    | '-' :: r => some ((-1 : Int), r)
    | _ => none
  let (hh, r1) ← read2 r0
  match r1 with
  | ':' :: r2 => do
      let (mm, r3) ← read2 r2
      if hh ≥ 24 ∨ mm ≥ 60 then none else
      match r3 with
      | ':' :: r4 => do
          let (ss, r5) ← read2 r4
          if ss ≥ 60 then none else
          pure (((sgn * (hh * 3600 + mm * 60 + ss) : Int) : ℚ), r5)
      | _ => pure (((sgn * (hh * 3600 + mm * 60) : Int) : ℚ), r3)
  | _ => none

/-- `datetime.fromisoformat`, on the `YYYY-MM-DD[<sep>HH[:MM[:SS[.ffffff]]]]`
`[±HH:MM[:SS]]` shapes the ingestion path relies on (the exact CPython
grammar varies by version; every claim input falls in this common subset).
An offset makes the result aware, shifting the instant to UTC. -/
def parseIso (s : String) : Option PyDateTime := do
  let cs := s.data
  let (y, r1) ← read4 cs
  let r2 ← match r1 with | '-' :: r => some r | _ => none
  let (mo, r3) ← read2 r2
  let r4 ← match r3 with | '-' :: r => some r | _ => none
  let (d, r5) ← read2 r4
  if mo < 1 ∨ 12 < mo then none else
  if d < 1 ∨ daysInMonth y mo < d then none else
  let base : ℚ := ((daysFromCivil y mo d * 86400 : Int) : ℚ)
  match r5 with
  | [] => pure ⟨base, false⟩
  | _sep :: r6 => do
      let (tod, r7) ← parseTimePart r6
      match r7 with
      | [] => pure ⟨base + tod, false⟩
      | _ => do
          let (off, r8) ← parseOffsetPart r7
          match r8 with
          | [] => pure ⟨base + tod - off, true⟩
          | _ => none

/-- `create_time.replace("Z", "+00:00")`: the replaced substring is a single
character, so a character-wise replacement is equivalent. -/
def pyReplaceZ (s : String) : String :=
  String.mk (s.data.foldr
    (fun c acc => if c = 'Z' then '+' :: '0' :: '0' :: ':' :: '0' :: '0' :: acc
                  else c :: acc) [])

/-- Lines 239-248 of `file_processor.py`: parse one timestamp value.  Numbers
(Python `bool` is an `int` subclass) go through `utcfromtimestamp`, strings
through Z-normalisation and `fromisoformat`; both paths are wrapped in
`try/except` returning `None`, so every failure yields `none`. -/
def parseTsValue : JVal → Option PyDateTime
  | .int n => utcfromtimestamp (n : ℚ)
  | .bool b => utcfromtimestamp (cond b 1 0)
  | .float q => utcfromtimestamp q
  | .str s => parseIso (pyReplaceZ s)
  | _ => none

/-- Lines 236-248: `msg_data.get("create_time") or msg_data.get("timestamp")`
followed by `parseTsValue`. -/
def parseCreateTime (m : JVal) : Option PyDateTime :=
  parseTsValue (pyOr (jget m "create_time") (jget m "timestamp"))

/-- `FileProcessor._extract_message_content` (lines 312-328).  The content is
`msg_data.get("content") or msg_data.get("text") or msg_data.get("parts", "")`;
a dict with a `parts` key joins `str(part)` over the iterated parts value with
single spaces (`none` models the `TypeError` raised when that value is not
iterable), a dict without one stringifies its `text` field, a list joins its
stringified items, and anything else is stringified directly. -/
def extract_message_content (m : JVal) : Option String :=
  let content := pyOr (pyOr (jget m "content") (jget m "text"))
                      (jgetD m "parts" (.str ""))
  match content with
  | .obj d =>
      match jlookup d "parts" with
      | some partsVal =>
          (pyIter partsVal).map (fun items =>
            String.intercalate " " (items.map pyStr))
      | none => some (pyStr ((jlookup d "text").getD (.str "")))
  | .arr items => some (String.intercalate " " (items.map pyStr))
  | v => some (pyStr v)

/-- The stats dictionary built by `process_chatgpt_export` /
`process_claude_export`. -/
structure Stats where
  conversations_processed : ℕ
  messages_processed : ℕ
  files_processed : List String
  errors : List String
deriving DecidableEq, Inhabited

/-- A `conversations` table row. -/
structure ConvRow where
  id : ℕ
  user_id : String
  external_id : Option String
  title : String
  provider : String
  source_file : String
  message_count : ℕ
  word_count : ℕ
  first_message_date : Option PyDateTime
  last_message_date : Option PyDateTime
deriving DecidableEq, Inhabited

/-- A `messages` table row. -/
structure MsgRow where
  id : ℕ
  user_id : String
  conversation_id : ℕ
  external_id : Option String
  role : String
  content : String
  word_count : ℕ
  timestamp_value : Option PyDateTime
deriving DecidableEq, Inhabited

/-- The database session state: persisted rows plus a counter standing in for
`uuid4` (a deterministic renaming of the generated ids). -/
structure Store where
  nextId : ℕ
  conversations : List ConvRow
  messages : List MsgRow
deriving DecidableEq, Inhabited

/-- State of the per-conversation message loop of `_process_chatgpt_json`
(lines 215-266): session and stats, the running `first_dt` / `last_dt`
bounds, the running `conv_message_count` / `conv_word_count`, and a raised
exception if any (`err` sticky: once raised, the rest of the work is
skipped, as the uncaught Python exception skips it). -/
structure MsgState where
  store : Store
  stats : Stats
  firstDt : Option PyDateTime
  lastDt : Option PyDateTime
  cnt : ℕ
  wc : ℕ
  err : Option String
deriving DecidableEq, Inhabited

/-- Lines 224-228: the message role value,
`(author or \x7b\x7d).get("role") if isinstance(author, dict) else get("role")`,
then `or ""`. -/
def roleValOf (m : JVal) : JVal :=
  let a := jget m "author"
  let r := if a.isObj then jget (pyOr a (.obj [])) "role" else jget m "role"
  pyOr r (.str "")

/-- Line 251-252: fold a parsed timestamp into the running `first_dt`;
a naive/aware mixed comparison raises `TypeError`. -/
def updateFirst (cur : Option PyDateTime) (t : PyDateTime) :
    Except String (Option PyDateTime) :=
  match cur with
  | none => .ok (some t)
  | some f =>
      match pyLtDT t f with
      | none => .error "TypeError: naive-aware comparison"
      | some true => .ok (some t)
      | some false => .ok (some f)

/-- Line 253-254: fold a parsed timestamp into the running `last_dt`. -/
def updateLast (cur : Option PyDateTime) (t : PyDateTime) :
    Except String (Option PyDateTime) :=
  match cur with
  | none => .ok (some t)
  | some l =>
      match pyGtDT t l with
      | none => .error "TypeError: naive-aware comparison"
      | some true => .ok (some t)
      | some false => .ok (some l)

/-- One iteration of the message loop (lines 220-266): skip non-dicts,
extract content, and — only when the extracted content is truthy, i.e. a
non-empty string — count the message, fold its timestamp into the running
bounds and add a message row to the session. -/
def processMessage (u : String) (convId : ℕ) (s : MsgState) (m : JVal) : MsgState :=
  if s.err.isSome then s
  else if !m.isObj then s
  else
    let roleVal := roleValOf m
    match extract_message_content m with
    | none => { s with err := some "TypeError: parts not iterable" }
    | some content =>
      if content = "" then s
      else
        let stats1 := { s.stats with
          messages_processed := s.stats.messages_processed + 1 }
        let cnt1 := s.cnt + 1
        let wc1 := s.wc + countWords content
        let ts := parseCreateTime m
        let bounds : Except String (Option PyDateTime × Option PyDateTime) :=
          match ts with
          | none => .ok (s.firstDt, s.lastDt)
          | some t =>
              match updateFirst s.firstDt t with
              | .error e => .error e
              | .ok f =>
                  match updateLast s.lastDt t with
                  | .error e => .error e
                  | .ok l => .ok (f, l)
        match bounds with
        | .error e =>
            { s with stats := stats1, cnt := cnt1, wc := wc1, err := some e }
        | .ok (f, l) =>
            let idv := jget m "id"
            let row : MsgRow := {
              id := s.store.nextId
              user_id := u
              conversation_id := convId
              external_id := if truthy idv then some (pyStr idv) else none
              role := if truthy roleVal then pyStr roleVal else "assistant"
              content := content
              word_count := countWords content
              timestamp_value := ts }
            { s with
              stats := stats1, cnt := cnt1, wc := wc1, firstDt := f, lastDt := l,
              store := { s.store with
                nextId := s.store.nextId + 1
                messages := s.store.messages ++ [row] } }

/-- Replace the conversation row with the given id (the ORM mutates the row
object held by the session). -/
def updateConvRow (st : Store) (r : ConvRow) : Store :=
  { st with conversations := st.conversations.map (fun c => if c.id = r.id then r else c) }

/-- Result of running the message loop plus the aggregate epilogue for one
conversation. -/
structure IngestRes where
  store : Store
  stats : Stats
  row : ConvRow
  err : Option String
deriving DecidableEq, Inhabited

/-- Lines 215-274: run the message loop over one conversation's messages,
then — when no exception was raised — apply the aggregate update epilogue
(lines 268-274): add the loop counters to the row's aggregates, keep the
stored first date unless it was null, and overwrite the stored last date
whenever the pass produced one. -/
def ingestMessages (u : String) (row : ConvRow) (msgs : List JVal)
    (store : Store) (stats : Stats) : IngestRes :=
  let s := msgs.foldl (processMessage u row.id) ⟨store, stats, none, none, 0, 0, none⟩
  match s.err with
  | some e => ⟨s.store, s.stats, row, some e⟩
  | none =>
      let row' := { row with
        message_count := row.message_count + s.cnt
        word_count := row.word_count + s.wc
        first_message_date :=
          match row.first_message_date with
          | some f => some f
          | none => s.firstDt
        last_message_date :=
          match s.lastDt with
          | some l => some l
          | none => row.last_message_date }
      ⟨updateConvRow s.store row', s.stats, row', none⟩

/-- Lines 202-209: reconstruct a message list from a ChatGPT `mapping`
object, keeping each node's `message` member when it is a dict, in key
(insertion) order. -/
def mappingMessages (mapping : List (String × JVal)) : List JVal :=
  mapping.filterMap (fun kv =>
    match kv.2 with
    | .obj nd =>
        match jlookup nd "message" with
        | some (.obj md) => some (.obj md)
        | _ => none
    | _ => none)

/-- Lines 200-211: resolve a conversation's message list — the direct
`messages` list when it is a non-empty list, else the `mapping` fallback;
`none` when the result is still not a non-empty list (the `continue`). -/
def resolveMessages (conv : JVal) : Option (List JVal) :=
  let m0 := jgetD conv "messages" (.arr [])
  let m1 :=
    match m0 with
    | .arr (x :: xs) => JVal.arr (x :: xs)
    | _ =>
        match jget conv "mapping" with
        | .obj d => JVal.arr (mappingMessages d)
        | _ => m0
  match m1 with
  | .arr (x :: xs) => some (x :: xs)
  | _ => none

/-- State threaded through the conversation loop of `_process_chatgpt_json`. -/
structure PState where
  store : Store
  stats : Stats
  err : Option String
deriving DecidableEq, Inhabited

/-- Lines 162-274, one conversation: read external id and title, look up the
existing row by (user, external id, provider) — the query compares against
`str(conv_external_id)`, so a missing id compares as the string `"None"` —
create and persist a fresh row when absent (flush happens before the message
check), update the title when changed, then resolve the message list; a
conversation whose resolved list is empty is left uncounted (`continue`),
otherwise it is counted and its messages ingested. -/
def processConversation (u : String) (ps : PState) (conv : JVal) : PState :=
  if ps.err.isSome then ps
  else if !conv.isObj then ps
  else
    let extVal := pyOr (jget conv "id") (jget conv "conversation_id")
    let titleVal := jgetD conv "title" (.str "")
    let title := if truthy titleVal then pyStr titleVal else "Untitled"
    let found := ps.store.conversations.find? (fun c =>
      decide (c.user_id = u ∧ c.external_id = some (pyStr extVal) ∧ c.provider = "chatgpt"))
    let rowStore : ConvRow × Store :=
      match found with
      | none =>
          let row : ConvRow := {
            id := ps.store.nextId
            user_id := u
            external_id := if truthy extVal then some (pyStr extVal) else none
            title := title
            provider := "chatgpt"
            source_file := "conversations.json"
            message_count := 0
            word_count := 0
            first_message_date := none
            last_message_date := none }
          (row, { ps.store with
            nextId := ps.store.nextId + 1
            conversations := ps.store.conversations ++ [row] })
      | some r =>
          let r' := if title ≠ "" ∧ r.title ≠ title then { r with title := title } else r
          (r', updateConvRow ps.store r')
    match resolveMessages conv with
    | none => { ps with store := rowStore.2 }
    | some msgs =>
        let stats1 := { ps.stats with
          conversations_processed := ps.stats.conversations_processed + 1 }
        let res := ingestMessages u rowStore.1 msgs rowStore.2 stats1
        ⟨res.store, res.stats, res.err⟩

/-- Lines 155-160 (shared by both providers): the conversation list — the
document itself when it is a list, else its `conversations` member iterated
(`none` models the `TypeError` when that member is not iterable), else
the empty initial list. -/
def conversationsOf (data : JVal) : Option (List JVal) :=
  match data with
  | .arr l => some l
  | .obj _ => pyIter (jgetD data "conversations" (.arr []))
  | _ => some []

/-- `FileProcessor._process_chatgpt_json` (lines 152-274): fold the
conversation loop, an uncaught exception skipping the remainder. -/
def process_chatgpt_json (data : JVal) (u : String) (store : Store) (stats : Stats) : PState :=
  match conversationsOf data with
  | none => ⟨store, stats, some "TypeError: conversations not iterable"⟩
  | some convs => convs.foldl (processConversation u) ⟨store, stats, none⟩

/-- `process_chatgpt_export` on one already-parsed JSON document: the
top-level `try/except` (lines 36-51) converts an escaped exception into an
appended error string, returning the stats accumulated so far. -/
def process_chatgpt_export_json (data : JVal) (u : String) (store : Store) (stats : Stats) :
    Store × Stats :=
  let ps := process_chatgpt_json data u store stats
  match ps.err with
  | some e => (ps.store, { ps.stats with errors := ps.stats.errors ++ ["Processing failed: " ++ e] })
  | none => (ps.store, ps.stats)

/-- Lines 301-310: one Claude message — count it when its `text` (falling
back to `content`) is truthy; nothing is persisted on this path. -/
def claudeMsg (stats : Stats) (m : JVal) : Stats :=
  if !m.isObj then stats
  else
    let content := pyOr (jgetD m "text" (.str "")) (jgetD m "content" (.str ""))
    if truthy content then
      { stats with messages_processed := stats.messages_processed + 1 }
    else stats

/-- Lines 286-310: one Claude conversation — skipped only when `messages` is
not a list; an empty list still counts the conversation. -/
def claudeConv (stats : Stats) (conv : JVal) : Stats :=
  if !conv.isObj then stats
  else
    match jgetD conv "messages" (.arr []) with
    | .arr msgs =>
        let stats1 := { stats with
          conversations_processed := stats.conversations_processed + 1 }
        msgs.foldl claudeMsg stats1
    | _ => stats

/-- `FileProcessor._process_claude_json` (lines 276-310). -/
def process_claude_json (data : JVal) (stats : Stats) : Stats :=
  match conversationsOf data with
  | none => { stats with errors := stats.errors ++ ["Processing failed: TypeError"] }
  | some convs => convs.foldl claudeConv stats

/-- A search-result dict, restricted to the fields the fusion and pagination
logic reads (`message_id`, `relevance_score`) plus representative payload
fields; the remaining display fields do not influence any studied behaviour. -/
structure SR where
  message_id : String
  conversation_id : String
  content : String
  relevance_score : ℚ
deriving DecidableEq, Inhabited

/-- Lookup in a dict built by `\x7bresult["message_id"]: result for result in l\x7d`:
with duplicate ids the last insertion wins. -/
def lookupLast : List SR → String → Option SR
  | [], _ => none
  | r :: t, i =>
      match lookupLast t i with
      | some x => some x
      | none => if r.message_id = i then some r else none

/-- First-occurrence deduplication (auxiliary, with the already-seen list). -/
def dedupFirstAux : List String → List String → List String
  | [], _ => []
  | x :: xs, seen =>
      if x ∈ seen then dedupFirstAux xs seen else x :: dedupFirstAux xs (x :: seen)

/-- First-occurrence deduplication of a list of ids. -/
def dedupFirst (l : List String) : List String := dedupFirstAux l []

/-- The set `fts_map.keys() | vector_map.keys()` (line 262).  Python iterates
this set in a hash-dependent order; the model fixes the enumeration to
lexical ids first, then the remaining semantic ids, in first-occurrence
order. -/
def unionIds (fts vec : List SR) : List String :=
  dedupFirst (fts.map (·.message_id) ++ vec.map (·.message_id))

/-- Loop body of `_combine_search_results` (lines 265-280) for one id:
scores default to 0 when the id is absent from a set, the combined score is
`alpha * vector_score + (1 - alpha) * fts_score`, and the FTS entry is
preferred as the base record. -/
def mkCombined (fts vec : List SR) (alpha : ℚ) (i : String) : Option SR :=
  let f := lookupLast fts i
  let v := lookupLast vec i
  let fscore := (f.map (·.relevance_score)).getD 0
  let vscore := (v.map (·.relevance_score)).getD 0
  let combined := alpha * vscore + (1 - alpha) * fscore
  match f with
  | some base => some { base with relevance_score := combined }
  | none =>
      match v with
      | some base => some { base with relevance_score := combined }
      | none => none

/-- Descending order on combined scores, the sort key of line 283.
`list.sort(key=..., reverse=True)` is a stable descending sort, modelled by
insertion sort with this non-strict relation. -/
def relDesc (a b : SR) : Prop := b.relevance_score ≤ a.relevance_score

instance : DecidableRel relDesc := fun a b => inferInstanceAs (Decidable (_ ≤ _))

instance : IsTotal SR relDesc := ⟨fun a b => le_total b.relevance_score a.relevance_score⟩

instance : IsTrans SR relDesc := ⟨fun _ _ _ h1 h2 => le_trans h2 h1⟩

/-- `_combine_search_results` before the final `[:limit]` truncation:
one combined entry per id of the union, sorted by descending combined
score (stable over the union enumeration). -/
def combineFull (fts vec : List SR) (alpha : ℚ) : List SR :=
  List.insertionSort relDesc ((unionIds fts vec).filterMap (mkCombined fts vec alpha))

/-- `SearchService._combine_search_results` (lines 248-284). -/
def combine_search_results (fts vec : List SR) (alpha : ℚ) (limit : ℕ) : List SR :=
  (combineFull fts vec alpha).take limit

/-- `SearchService._format_search_results` (lines 225-246): every formatted
result carries the placeholder `relevance_score = 1.0`. -/
def formatSearchResults (msgs : List MsgRow) : List SR :=
  msgs.map (fun m => {
    message_id := toString m.id
    conversation_id := toString m.conversation_id
    content := m.content
    relevance_score := 1 })

/-- `SearchService.full_text_search` (lines 23-76).  The SQL engine's
ranked, filtered match list for the query is the `ranked` parameter (an
external collaborator); the function applies `OFFSET offset LIMIT limit`
to it and formats the rows. -/
def full_text_search (ranked : List MsgRow) (limit offset : ℕ) : List SR :=
  formatSearchResults ((ranked.drop offset).take limit)

/-- `SearchService.vector_search` (lines 78-96): the semantic path is not
implemented and unconditionally returns the empty list after a warning. -/
def vector_search (query : String) (limit offset : ℕ) (threshold : ℚ) : List SR :=
  []

/-- `SearchService.hybrid_search` (lines 98-124): over-fetch both sets to
`2 * limit` from offset 0, fuse with `_combine_search_results` (which
truncates to `limit`), then slice `[offset:offset+limit]`. -/
def hybrid_search (ranked : List MsgRow) (query : String) (limit offset : ℕ)
    (alpha threshold : ℚ) : List SR :=
  let fts := full_text_search ranked (limit * 2) 0
  let vec := vector_search query (limit * 2) 0 threshold
  let combined := combine_search_results fts vec alpha limit
  (combined.drop offset).take limit

/-- JSON whitespace. -/
def jsonWs (c : Char) : Bool := c = ' ' || c = '\t' || c = '\n' || c = '\r'

/-- Skip JSON whitespace. -/
def skipWs : List Char → List Char
  | [] => []
  | c :: cs => if jsonWs c then skipWs cs else c :: cs

/-- Expect a literal character sequence. -/
def expectLit : List Char → List Char → Option (List Char)
  | [], cs => some cs
  | _ :: _, [] => none
  | l :: ls, c :: cs => if c = l then expectLit ls cs else none

/-- Hexadecimal digit test. -/
def isHexDigit (c : Char) : Bool :=
  c.isDigit || ('a' ≤ c && c ≤ 'f') || ('A' ≤ c && c ≤ 'F')

/-- Body of a JSON string after the opening quote, including escapes;
returns the remainder after the closing quote.  Raw control characters are
rejected (`json.loads` strict mode). -/
def jsonStringTail : List Char → Option (List Char)
  | [] => none
  | c :: cs =>
      if c = Char.ofNat 34 then some cs
      else if c = Char.ofNat 92 then
        match cs with
        | [] => none
        | e :: cs' =>
            if e = Char.ofNat 34 || e = Char.ofNat 92 || e = '/' || e = 'b'
                || e = 'f' || e = 'n' || e = 'r' || e = 't' then
              jsonStringTail cs'
            else if e = 'u' then
              match cs' with
              | h1 :: h2 :: h3 :: h4 :: cs'' =>
                  if isHexDigit h1 && isHexDigit h2 && isHexDigit h3 && isHexDigit h4 then
                    jsonStringTail cs''
                  else none
              | _ => none
            else none
      else if c.toNat < 32 then none
      else jsonStringTail cs

/-- Optional fraction part of a JSON number. -/
def jsonFracPart : List Char → Option (List Char)
  | '.' :: r =>
      match r.takeWhile Char.isDigit with
      | [] => none
      | _ => some (r.dropWhile Char.isDigit)
  | cs => some cs

/-- Optional exponent part of a JSON number. -/
def jsonExpPart : List Char → Option (List Char)
  | [] => some []
  | c :: r =>
      if c = 'e' || c = 'E' then
        let r1 := match r with
          | s :: t => if s = '+' || s = '-' then t else r
          | [] => r
        match r1.takeWhile Char.isDigit with
        | [] => none
        | _ => some (r1.dropWhile Char.isDigit)
      else some (c :: r)

/-- A JSON number (RFC 8259 grammar, as the `json` module's regex): optional
minus, `0` or a non-zero-led digit run, optional fraction, optional
exponent. -/
def jsonNumber (cs : List Char) : Option (List Char) :=
  let cs1 := match cs with
    | '-' :: r => r
    | _ => cs
  match cs1 with
  | [] => none
  | '0' :: r => (jsonFracPart r).bind jsonExpPart
  | c :: _ =>
      if c.isDigit then
        (jsonFracPart (cs1.dropWhile Char.isDigit)).bind jsonExpPart
      else none

mutual
/-- A JSON value, fuel-bounded recursive descent; returns the unconsumed
remainder on success.  `json.loads` also accepts `NaN`, `Infinity` and
`-Infinity` by default. -/
def jsonValue : ℕ → List Char → Option (List Char)
  | 0, _ => none
  | Nat.succ fuel, cs =>
      match skipWs cs with
      | [] => none
      | c :: rest =>
          if c = Char.ofNat 34 then jsonStringTail rest
          else if c = Char.ofNat 123 then jsonObjectTail fuel rest
          else if c = '[' then jsonArrayTail fuel rest
          else if c = 't' then expectLit ['r', 'u', 'e'] rest
          else if c = 'f' then expectLit ['a', 'l', 's', 'e'] rest
          else if c = 'n' then expectLit ['u', 'l', 'l'] rest
          else if c = 'N' then expectLit ['a', 'N'] rest
          else if c = 'I' then expectLit ['n', 'f', 'i', 'n', 'i', 't', 'y'] rest
          else if c = '-' then
            match rest with
            | 'I' :: r => expectLit ['n', 'f', 'i', 'n', 'i', 't', 'y'] r
            | _ => jsonNumber (c :: rest)
          else jsonNumber (c :: rest)

/-- After `[`: an empty array or the first element. -/
def jsonArrayTail : ℕ → List Char → Option (List Char)
  | 0, _ => none
  | Nat.succ fuel, cs =>
      match skipWs cs with
      | [] => none
      | c :: r =>
          if c = ']' then some r
          else
            match jsonValue fuel (c :: r) with
            | some r2 => jsonArraySep fuel r2
            | none => none

/-- After an array element: `,` and the next element, or `]`. -/
def jsonArraySep : ℕ → List Char → Option (List Char)
  | 0, _ => none
  | Nat.succ fuel, cs =>
      match skipWs cs with
      | [] => none
      | c :: r =>
          if c = ']' then some r
          else if c = ',' then
            match jsonValue fuel r with
            | some r2 => jsonArraySep fuel r2
            | none => none
          else none

/-- After `\x7b`: an empty object or the first member. -/
def jsonObjectTail : ℕ → List Char → Option (List Char)
  | 0, _ => none
  | Nat.succ fuel, cs =>
      match skipWs cs with
      | [] => none
      | c :: r =>
          if c = Char.ofNat 125 then some r
          else if c = Char.ofNat 34 then
            match jsonStringTail r with
            | some r2 => jsonMemberVal fuel r2
            | none => none
          else none

/-- After an object key: `:`, the value, then `,` with further members or
the closing brace. -/
def jsonMemberVal : ℕ → List Char → Option (List Char)
  | 0, _ => none
  | Nat.succ fuel, cs =>
      match skipWs cs with
      | ':' :: r =>
          match jsonValue fuel r with
          | some r2 => jsonObjectSep fuel r2
          | none => none
      | _ => none

/-- After an object member: `,` and the next member, or the closing brace. -/
def jsonObjectSep : ℕ → List Char → Option (List Char)
  | 0, _ => none
  | Nat.succ fuel, cs =>
      match skipWs cs with
      | [] => none
      | c :: r =>
          if c = Char.ofNat 125 then some r
          else if c = ',' then
            match skipWs r with
            | c2 :: r2 =>
                if c2 = Char.ofNat 34 then
                  match jsonStringTail r2 with
                  | some r3 => jsonMemberVal fuel r3
                  | none => none
                else none
            | [] => none
          else none
end

/-- `json.loads(sample)` acceptance: parse one value and require only
whitespace to remain. -/
def pyJsonValid (s : String) : Bool :=
  match jsonValue (4 * (s.length + 1)) s.data with
  | some rest => (skipWs rest).isEmpty
  | none => false

/-- The validation-info dict built by `FileProcessor.validate_file`. -/
structure ValidationInfo where
  is_valid : Bool
  file_type : Option String
  estimated_size : ℕ
  warnings : List String
deriving DecidableEq, Inhabited

/-- `FileProcessor.validate_file`, `.json` branch (lines 330-384): record
the size (with a >100MB warning), read the first 1024 characters
(`f.read(1024)`) and declare the file valid exactly when that sample alone
parses as JSON; all exceptions are caught, so a result is always returned. -/
def validate_json_file (content : String) : ValidationInfo :=
  let fileSize := content.length
  let warn0 :=
    if fileSize > 100 * 1024 * 1024 then
      ["File is very large and may take a long time to process"]
    else []
  let sample := String.mk (content.data.take 1024)
  if pyJsonValid sample then
    { is_valid := true, file_type := some "json_export",
      estimated_size := fileSize, warnings := warn0 }
  else
    { is_valid := false, file_type := none, estimated_size := fileSize,
      warnings := warn0 ++ ["File does not appear to be valid JSON"] }

/-- Claim-side restatement: the extracted content of a message that the
ingestion loop counts — a dict whose extraction succeeds with a non-empty
string. -/
def extractableContent (m : JVal) : Option String :=
  if m.isObj then
    match extract_message_content m with
    | some c => if c = "" then none else some c
    | none => none
  else none

/-- Claim-side: number of countable messages of a conversation. -/
def countedMsgs (msgs : List JVal) : ℕ := (msgs.filterMap extractableContent).length

/-- Claim-side: total whitespace-token count of the countable messages. -/
def sumWords (msgs : List JVal) : ℕ :=
  ((msgs.filterMap extractableContent).map countWords).sum

/-- Claim-side: the timestamps parsed for the countable messages, in order. -/
def tsListOf (msgs : List JVal) : List PyDateTime :=
  msgs.filterMap (fun m =>
    if (extractableContent m).isSome then parseCreateTime m else none)

/-- One step of the claim-side running minimum by represented instant,
keeping the earlier element on ties. -/
def minStep (acc : Option PyDateTime) (t : PyDateTime) : Option PyDateTime :=
  match acc with
  | none => some t
  | some a => if t.sec < a.sec then some t else some a

/-- One step of the claim-side running maximum by represented instant,
keeping the earlier element on ties. -/
def maxStep (acc : Option PyDateTime) (t : PyDateTime) : Option PyDateTime :=
  match acc with
  | none => some t
  | some a => if a.sec < t.sec then some t else some a

/-- Claim-side minimum of a timestamp list by represented instant. -/
def specMin (l : List PyDateTime) : Option PyDateTime := l.foldl minStep none

/-- Claim-side maximum of a timestamp list by represented instant. -/
def specMax (l : List PyDateTime) : Option PyDateTime := l.foldl maxStep none

/-- Claim-side: the score a result set assigns to an id, defaulting to 0
when absent — `result.get("relevance_score", 0)` over the id-keyed dict. -/
def scoreOf (l : List SR) (i : String) : ℚ :=
  ((lookupLast l i).map (·.relevance_score)).getD 0

/-- A deterministic ranked corpus row. -/
def mrow (k : ℕ) : MsgRow :=
  { id := k, user_id := "u", conversation_id := 0, external_id := none,
    role := "user", content := "m", word_count := 1, timestamp_value := none }

/-- A deterministic 25-result ranked match list. -/
def ranked25 : List MsgRow := (List.range 25).map mrow

/-- Fresh stats dictionary. -/
def emptyStats : Stats := ⟨0, 0, [], []⟩

/-- Empty database session. -/
def emptyStore : Store := ⟨0, [], []⟩

/-- A chatgpt export whose single conversation has one message with empty
content — no message yields extractable content. -/
def c4ChatgptInput : JVal :=
  .arr [.obj [("id", .str "c1"), ("title", .str "T"),
    ("messages", .arr [.obj [("content", .str "")]])]]

/-- A Claude export whose single conversation has an empty message list. -/
def c4ClaudeInput : JVal := .arr [.obj [("uuid", .str "x"), ("messages", .arr [])]]

/-- A chatgpt export whose single conversation has one message whose
extracted content is the whitespace-only string `" "`. -/
def c3WhitespaceInput : JVal :=
  .arr [.obj [("id", .str "c1"), ("title", .str "T"),
    ("messages", .arr [.obj [("content", .str " ")]])]]

/-- A stored conversation with first timestamp 100 and last timestamp 200. -/
def c5PrevRow : ConvRow :=
  { id := 0, user_id := "u", external_id := some "c1", title := "T",
    provider := "chatgpt", source_file := "conversations.json",
    message_count := 1, word_count := 1,
    first_message_date := some ⟨100, false⟩, last_message_date := some ⟨200, false⟩ }

/-- A store already holding `c5PrevRow`. -/
def c5Store : Store := ⟨1, [c5PrevRow], []⟩

/-- A re-ingestion pass for the stored conversation with message timestamps
50 and 150 — pass minimum 50 earlier than the stored first 100, pass
maximum 150 earlier than the stored last 200. -/
def c5Input : JVal :=
  .arr [.obj [("id", .str "c1"), ("title", .str "T"),
    ("messages", .arr [
      .obj [("content", .str "hi"), ("create_time", .int 50)],
      .obj [("content", .str "yo"), ("create_time", .int 150)]])]]

/-- A 1025-character file consisting solely of the digit 1: well-formed JSON
(one number) longer than 1024 bytes whose 1024-byte sample is itself
well-formed JSON. -/
def longOnes : String := String.mk (List.replicate 1025 '1')

/-! ### Helper lemmas: deduplicated unions and id-keyed lookups -/

theorem mem_dedupFirstAux (x : String) :
    ∀ (l seen : List String), x ∈ dedupFirstAux l seen ↔ x ∈ l ∧ x ∉ seen := by
  intro l
  induction l with
  | nil => intro seen; simp [dedupFirstAux]
  | cons y ys ih =>
      intro seen
      by_cases hy : y ∈ seen
      · rw [dedupFirstAux, if_pos hy, ih]
        constructor
        · rintro ⟨h1, h2⟩
          exact ⟨List.mem_cons_of_mem _ h1, h2⟩
        · rintro ⟨h1, h2⟩
          rcases List.mem_cons.mp h1 with rfl | h1'
          · exact absurd hy h2
          · exact ⟨h1', h2⟩
      · rw [dedupFirstAux, if_neg hy]
        constructor
        · intro hmem
          rcases List.mem_cons.mp hmem with rfl | h1
          · exact ⟨List.mem_cons_self _ _, hy⟩
          · rcases (ih (y :: seen)).mp h1 with ⟨ha, hb⟩
            exact ⟨List.mem_cons_of_mem _ ha,
              fun hc => hb (List.mem_cons_of_mem _ hc)⟩
        · rintro ⟨h1, h2⟩
          rcases List.mem_cons.mp h1 with rfl | h1'
          · exact List.mem_cons_self _ _
          · by_cases hxy : x = y
            · subst hxy; exact List.mem_cons_self _ _
            · refine List.mem_cons_of_mem _ ((ih (y :: seen)).mpr ⟨h1', fun hc => ?_⟩)
              rcases List.mem_cons.mp hc with h | h
              · exact hxy h
              · exact h2 h

theorem nodup_dedupFirstAux :
    ∀ (l seen : List String), (dedupFirstAux l seen).Nodup := by
  intro l
  induction l with
  | nil => intro seen; simp [dedupFirstAux]
  | cons y ys ih =>
      intro seen
      by_cases hy : y ∈ seen
      · rw [dedupFirstAux, if_pos hy]; exact ih seen
      · rw [dedupFirstAux, if_neg hy]
        refine List.nodup_cons.mpr ⟨fun hmem => ?_, ih (y :: seen)⟩
        exact ((mem_dedupFirstAux y ys (y :: seen)).mp hmem).2 (List.mem_cons_self _ _)

theorem mem_dedupFirst (x : String) (l : List String) :
    x ∈ dedupFirst l ↔ x ∈ l := by
  simp [dedupFirst, mem_dedupFirstAux]

theorem nodup_dedupFirst (l : List String) : (dedupFirst l).Nodup :=
  nodup_dedupFirstAux l []

theorem mem_unionIds (i : String) (fts vec : List SR) :
    i ∈ unionIds fts vec ↔
      i ∈ fts.map (·.message_id) ∨ i ∈ vec.map (·.message_id) := by
  simp [unionIds, mem_dedupFirst]

theorem nodup_unionIds (fts vec : List SR) : (unionIds fts vec).Nodup :=
  nodup_dedupFirst _

theorem lookupLast_eq_some (l : List SR) (i : String) (r : SR)
    (h : lookupLast l i = some r) : r.message_id = i ∧ r ∈ l := by
  induction l with
  | nil => simp [lookupLast] at h
  | cons a t ih =>
      rw [lookupLast] at h
      rcases ht : lookupLast t i with _ | x
      · rw [ht] at h
        by_cases hai : a.message_id = i
        · rw [if_pos hai] at h
          cases h
          exact ⟨hai, List.mem_cons_self _ _⟩
        · rw [if_neg hai] at h; cases h
      · rw [ht] at h
        cases h
        rcases ih ht with ⟨h1, h2⟩
        exact ⟨h1, List.mem_cons_of_mem _ h2⟩

theorem lookupLast_isSome (l : List SR) (i : String) (r : SR)
    (hr : r ∈ l) (hi : r.message_id = i) : (lookupLast l i).isSome := by
  induction l with
  | nil => simp at hr
  | cons a t ih =>
      rw [lookupLast]
      rcases ht : lookupLast t i with _ | x
      · rcases List.mem_cons.mp hr with rfl | hmem
        · simp [if_pos hi]
        · have := ih hmem; rw [ht] at this; simp at this
      · simp

theorem lookupLast_self (l : List SR)
    (hnd : (l.map (·.message_id)).Nodup) (r : SR) (hr : r ∈ l) :
    lookupLast l r.message_id = some r := by
  induction l with
  | nil => simp at hr
  | cons a t ih =>
      rw [lookupLast]
      have hnd' : (t.map (·.message_id)).Nodup := (List.nodup_cons.mp hnd).2
      have hna : a.message_id ∉ t.map (·.message_id) := (List.nodup_cons.mp hnd).1
      rcases List.mem_cons.mp hr with rfl | hmem
      · rcases ht : lookupLast t r.message_id with _ | x
        · simp
        · exfalso
          rcases lookupLast_eq_some t _ x ht with ⟨hx1, hx2⟩
          exact hna (by rw [← hx1]; exact List.mem_map_of_mem _ hx2)
      · rw [ih hnd' hmem]

/-! ### Helper lemmas: fused entries -/

theorem mkCombined_mid (fts vec : List SR) (alpha : ℚ) (i : String) (r : SR)
    (h : mkCombined fts vec alpha i = some r) : r.message_id = i := by
  unfold mkCombined at h
  rcases hf : lookupLast fts i with _ | f
  · rcases hv : lookupLast vec i with _ | v
    · rw [hf, hv] at h; cases h
    · rw [hf, hv] at h
      cases h
      exact (lookupLast_eq_some vec i v hv).1
  · rw [hf] at h
    cases h
    exact (lookupLast_eq_some fts i f hf).1

theorem mkCombined_isSome (fts vec : List SR) (alpha : ℚ) (i : String)
    (h : i ∈ fts.map (·.message_id) ∨ i ∈ vec.map (·.message_id)) :
    (mkCombined fts vec alpha i).isSome := by
  unfold mkCombined
  rcases hf : lookupLast fts i with _ | f
  · rcases hv : lookupLast vec i with _ | v
    · exfalso
      rcases h with h | h
      · rcases List.mem_map.mp h with ⟨r, hr, hri⟩
        have := lookupLast_isSome fts i r hr hri
        rw [hf] at this; simp at this
      · rcases List.mem_map.mp h with ⟨r, hr, hri⟩
        have := lookupLast_isSome vec i r hr hri
        rw [hv] at this; simp at this
    · simp [hf, hv]
  · simp [hf]

theorem mkCombined_score (fts vec : List SR) (alpha : ℚ) (i : String) (r : SR)
    (h : mkCombined fts vec alpha i = some r) :
    r.relevance_score = alpha * scoreOf vec i + (1 - alpha) * scoreOf fts i := by
  unfold mkCombined at h
  rcases hf : lookupLast fts i with _ | f
  · rcases hv : lookupLast vec i with _ | v
    · rw [hf, hv] at h; cases h
    · rw [hf, hv] at h
      cases h
      simp [scoreOf, hf, hv]
  · rw [hf] at h
    cases h
    simp [scoreOf, hf]

/-! ### Helper lemmas: filterMap bookkeeping -/

theorem filterMap_map_of_some {α β : Type} (mk : α → Option β) (dm : β → α) :
    ∀ (l : List α), (∀ i ∈ l, ∃ r, mk i = some r ∧ dm r = i) →
      (l.filterMap mk).map dm = l := by
  intro l
  induction l with
  | nil => intro _; simp
  | cons x xs ih =>
      intro h
      rcases h x (List.mem_cons_self _ _) with ⟨r, hr, hdm⟩
      rw [List.filterMap_cons, hr, List.map_cons, hdm,
        ih (fun i hi => h i (List.mem_cons_of_mem _ hi))]

theorem filterMap_filter_comm {α β : Type} (mk : α → Option β) (dm : β → α)
    (q : α → Bool) (hmid : ∀ i r, mk i = some r → dm r = i) :
    ∀ (l : List α),
      (l.filterMap mk).filter (fun r => q (dm r)) = (l.filter q).filterMap mk := by
  intro l
  induction l with
  | nil => simp
  | cons x xs ih =>
      rcases hx : mk x with _ | r
      · by_cases hq : q x
        · simp [List.filterMap_cons, hx, List.filter_cons, hq, ih]
        · simp [List.filterMap_cons, hx, List.filter_cons, hq, ih]
      · have hd := hmid x r hx
        by_cases hq : q x
        · simp [List.filterMap_cons, hx, List.filter_cons, hq, hd, ih]
        · simp [List.filterMap_cons, hx, List.filter_cons, hq, hd, ih]

/-- If `mk` succeeds on the key of every element of `l` and reproduces the
element itself, then `filterMap mk` over the key list reproduces `l`. -/
theorem filterMap_keys_eq_self {α β : Type} (mk : β → Option α) (key : α → β) :
    ∀ (l : List α), (∀ r ∈ l, mk (key r) = some r) →
      (l.map key).filterMap mk = l := by
  intro l
  induction l with
  | nil => intro _; simp
  | cons x xs ih =>
      intro h
      rw [List.map_cons, List.filterMap_cons, h x (List.mem_cons_self _ _),
        ih (fun r hr => h r (List.mem_cons_of_mem _ hr))]

/-- If `mk` on the key of every element of `l` succeeds with a value carrying
the same observation `g` as the element's `g'`, the observations agree
listwise. -/
theorem filterMap_keys_map_obs {α β γ : Type} (mk : β → Option α) (key : α → β)
    (g : α → γ) (g' : α → γ) :
    ∀ (l : List α), (∀ r ∈ l, ∃ x, mk (key r) = some x ∧ g x = g' r) →
      ((l.map key).filterMap mk).map g = l.map g' := by
  intro l
  induction l with
  | nil => intro _; simp
  | cons x xs ih =>
      intro h
      rcases h x (List.mem_cons_self _ _) with ⟨w, hw, hg⟩
      rw [List.map_cons, List.filterMap_cons, hw, List.map_cons, hg,
        ih (fun r hr => h r (List.mem_cons_of_mem _ hr)), List.map_cons]

/-! ### Helper lemma: a weakly sorted permutation of a strictly sorted list -/

theorem eq_of_perm_of_key_sorted {α : Type} (key : α → ℚ) :
    ∀ (l' l : List α), l.Perm l' →
      l'.Pairwise (fun a b => key b < key a) →
      l.Pairwise (fun a b => key b ≤ key a) → l = l' := by
  intro l'
  induction l' with
  | nil =>
      intro l hp _ _
      exact List.Perm.eq_nil hp
  | cons b bs ih =>
      intro l hp hstrict hweak
      rcases l with _ | ⟨a, as⟩
      · exact absurd (List.Perm.nil_eq hp) (by simp)
      · have hab : a = b := by
          by_contra hne
          have ha' : a ∈ b :: bs := hp.mem_iff.mp (List.mem_cons_self _ _)
          have hb' : b ∈ a :: as := hp.mem_iff.mpr (List.mem_cons_self _ _)
          have ha2 : a ∈ bs := by
            rcases List.mem_cons.mp ha' with h | h
            · exact absurd h hne
            · exact h
          have hb2 : b ∈ as := by
            rcases List.mem_cons.mp hb' with h | h
            · exact absurd h.symm hne
            · exact h
          have h1 : key a < key b := (List.pairwise_cons.mp hstrict).1 a ha2
          have h2 : key b ≤ key a := (List.pairwise_cons.mp hweak).1 b hb2
          exact absurd (lt_of_le_of_lt h2 h1) (lt_irrefl _)
        subst hab
        have htail := hp.cons_inv
        rw [ih as htail (List.pairwise_cons.mp hstrict).2
          (List.pairwise_cons.mp hweak).2]

/-- Claim C1: for every pair of candidate result lists and every weight
`alpha` (in particular every `alpha ∈ [0,1]`), `_combine_search_results`
produces, before truncation, exactly one entry per message id of the union
of the two lists (the output ids are a permutation of the duplicate-free
union), each entry scored
`alpha * semantic_score(id) + (1 - alpha) * lexical_score(id)` with absent
scores defaulting to 0, sorted descending by combined score (the
deterministic tie-break being the stable sort over the model's fixed union
enumeration), and the returned list is that list truncated to at most
`limit` entries. -/
theorem C1_rank_fusion (fts vec : List SR) (alpha : ℚ) (limit : ℕ) :
    combine_search_results fts vec alpha limit
        = (combineFull fts vec alpha).take limit
    ∧ (combine_search_results fts vec alpha limit).length ≤ limit
    ∧ ((combineFull fts vec alpha).map (·.message_id)).Perm (unionIds fts vec)
    ∧ (unionIds fts vec).Nodup
    ∧ (∀ i, i ∈ unionIds fts vec ↔
        i ∈ fts.map (·.message_id) ∨ i ∈ vec.map (·.message_id))
    ∧ (∀ r ∈ combineFull fts vec alpha,
        r.relevance_score
          = alpha * scoreOf vec r.message_id
            + (1 - alpha) * scoreOf fts r.message_id)
    ∧ List.Sorted relDesc (combineFull fts vec alpha) := by
  refine ⟨rfl, ?_, ?_, nodup_unionIds fts vec, fun i => mem_unionIds i fts vec, ?_, ?_⟩
  · rw [combine_search_results]
    rw [List.length_take]
    exact min_le_left _ _
  · have hperm := (List.perm_insertionSort relDesc
      ((unionIds fts vec).filterMap (mkCombined fts vec alpha))).map (·.message_id)
    rw [combineFull]
    have heq : ((unionIds fts vec).filterMap (mkCombined fts vec alpha)).map
        (·.message_id) = unionIds fts vec := by
      refine filterMap_map_of_some _ _ _ (fun i hi => ?_)
      rcases Option.isSome_iff_exists.mp
        (mkCombined_isSome fts vec alpha i ((mem_unionIds i fts vec).mp hi)) with ⟨r, hr⟩
      exact ⟨r, hr, mkCombined_mid fts vec alpha i r hr⟩
    rw [heq] at hperm
    exact hperm
  · intro r hr
    have hmem : r ∈ (unionIds fts vec).filterMap (mkCombined fts vec alpha) :=
      (List.perm_insertionSort relDesc _).mem_iff.mp hr
    rcases List.mem_filterMap.mp hmem with ⟨i, _, hmk⟩
    have hmid := mkCombined_mid fts vec alpha i r hmk
    rw [hmid]
    exact mkCombined_score fts vec alpha i r hmk
  · exact List.sorted_insertionSort relDesc _

/-! ### Helper lemmas: fusion at the degenerate weights -/

theorem mkCombined_alpha0 (fts vec : List SR)
    (hnd : (fts.map (·.message_id)).Nodup) (r : SR) (hr : r ∈ fts) :
    mkCombined fts vec 0 r.message_id = some r := by
  obtain ⟨i, ci, co, sc⟩ := r
  have hl := lookupLast_self fts hnd ⟨i, ci, co, sc⟩ hr
  simp only [mkCombined, hl]
  have h : (0 : ℚ) * ((lookupLast vec i).map (·.relevance_score)).getD 0
      + (1 - 0) * sc = sc := by ring
  simp [h]

theorem mkCombined_alpha1 (fts vec : List SR)
    (hnd : (vec.map (·.message_id)).Nodup) (r : SR) (hr : r ∈ vec) :
    ∃ x, mkCombined fts vec 1 r.message_id = some x
      ∧ x.message_id = r.message_id ∧ x.relevance_score = r.relevance_score := by
  have hv := lookupLast_self vec hnd r hr
  rcases hf : lookupLast fts r.message_id with _ | base
  · refine ⟨{ r with relevance_score := 1 * r.relevance_score + (1 - 1) * 0 }, ?_, rfl, by ring⟩
    simp only [mkCombined, hf, hv]
    simp
  · refine ⟨{ base with relevance_score :=
        1 * r.relevance_score + (1 - 1) * base.relevance_score }, ?_, ?_, by ring⟩
    · simp only [mkCombined, hf, hv]
      simp
    · exact (lookupLast_eq_some fts r.message_id base hf).1

theorem unionIds_filter_perm_left (fts vec : List SR)
    (hnd : (fts.map (·.message_id)).Nodup) :
    ((unionIds fts vec).filter
        (fun i => decide (i ∈ fts.map (·.message_id)))).Perm
      (fts.map (·.message_id)) := by
  rw [List.perm_ext_iff_of_nodup
    ((nodup_unionIds fts vec).filter _) hnd]
  intro i
  simp only [List.mem_filter, decide_eq_true_eq, mem_unionIds]
  constructor
  · rintro ⟨_, h⟩; exact h
  · intro h; exact ⟨Or.inl h, h⟩

theorem unionIds_filter_perm_right (fts vec : List SR)
    (hnd : (vec.map (·.message_id)).Nodup) :
    ((unionIds fts vec).filter
        (fun i => decide (i ∈ vec.map (·.message_id)))).Perm
      (vec.map (·.message_id)) := by
  rw [List.perm_ext_iff_of_nodup
    ((nodup_unionIds fts vec).filter _) hnd]
  intro i
  simp only [List.mem_filter, decide_eq_true_eq, mem_unionIds]
  constructor
  · rintro ⟨_, h⟩; exact h
  · intro h; exact ⟨Or.inr h, h⟩

/-- Claim C2: within the fused candidate set, fusion with `alpha = 0`
reproduces the pure lexical result list exactly (records and order), fusion
with `alpha = 1` reproduces the pure semantic ordering of ids, and at
`alpha = 0.5` a message with lexical score 0.8 and no semantic score
(combined 0.4) ranks above a message with semantic score 0.6 and no lexical
score (combined 0.3).  The pure result lists are assumed to carry distinct
ids and strictly descending scores (their ranked order); with ties the
source's ordering depends on Python's set iteration order and no ordering
statement is possible. -/
theorem C2_fusion_degenerate (fts vec : List SR)
    (hf : fts.Pairwise (fun a b => b.relevance_score < a.relevance_score))
    (hfn : (fts.map (·.message_id)).Nodup)
    (hv : vec.Pairwise (fun a b => b.relevance_score < a.relevance_score))
    (hvn : (vec.map (·.message_id)).Nodup) :
    (combineFull fts vec 0).filter
        (fun r => decide (r.message_id ∈ fts.map (·.message_id))) = fts
    ∧ ((combineFull fts vec 1).filter
        (fun r => decide (r.message_id ∈ vec.map (·.message_id)))).map
          (·.message_id) = vec.map (·.message_id)
    ∧ (combine_search_results [⟨"A", "c1", "lex only", 0.8⟩]
          [⟨"B", "c2", "sem only", 0.6⟩] 0.5 10).map
          (fun r => (r.message_id, r.relevance_score))
        = [("A", 0.4), ("B", 0.3)] := by
  refine ⟨?_, ?_, ?_⟩
  · -- alpha = 0
    have h1 : ((combineFull fts vec 0).filter
        (fun r => decide (r.message_id ∈ fts.map (·.message_id)))).Perm
        (((unionIds fts vec).filterMap (mkCombined fts vec 0)).filter
          (fun r => decide (r.message_id ∈ fts.map (·.message_id)))) :=
      (List.perm_insertionSort relDesc _).filter _
    have h2 : (((unionIds fts vec).filterMap (mkCombined fts vec 0)).filter
        (fun r => decide (r.message_id ∈ fts.map (·.message_id))))
        = ((unionIds fts vec).filter
            (fun i => decide (i ∈ fts.map (·.message_id)))).filterMap
          (mkCombined fts vec 0) :=
      filterMap_filter_comm (mkCombined fts vec 0) (·.message_id)
        (fun i => decide (i ∈ fts.map (·.message_id)))
        (fun i r h => mkCombined_mid fts vec 0 i r h) _
    have h4 : (((unionIds fts vec).filter
        (fun i => decide (i ∈ fts.map (·.message_id)))).filterMap
          (mkCombined fts vec 0)).Perm
        ((fts.map (·.message_id)).filterMap (mkCombined fts vec 0)) :=
      (unionIds_filter_perm_left fts vec hfn).filterMap _
    have h5 : (fts.map (·.message_id)).filterMap (mkCombined fts vec 0) = fts :=
      filterMap_keys_eq_self _ _ fts (fun r hr => mkCombined_alpha0 fts vec hfn r hr)
    have h24 : ((((unionIds fts vec).filterMap (mkCombined fts vec 0)).filter
        (fun r => decide (r.message_id ∈ fts.map (·.message_id))))).Perm
        ((fts.map (·.message_id)).filterMap (mkCombined fts vec 0)) := by
      rw [h2]; exact h4
    have h56 : ((fts.map (·.message_id)).filterMap (mkCombined fts vec 0)).Perm fts := by
      rw [h5]
    have hperm : ((combineFull fts vec 0).filter
        (fun r => decide (r.message_id ∈ fts.map (·.message_id)))).Perm fts :=
      (h1.trans h24).trans h56
    have hweak : ((combineFull fts vec 0).filter
        (fun r => decide (r.message_id ∈ fts.map (·.message_id)))).Pairwise
        (fun a b => b.relevance_score ≤ a.relevance_score) :=
      (List.sorted_insertionSort relDesc _).filter _
    exact eq_of_perm_of_key_sorted (·.relevance_score) fts _ hperm hf hweak
  · -- alpha = 1
    have h1 : (((combineFull fts vec 1).filter
        (fun r => decide (r.message_id ∈ vec.map (·.message_id)))).map
          (fun r => (r.message_id, r.relevance_score))).Perm
        ((((unionIds fts vec).filterMap (mkCombined fts vec 1)).filter
          (fun r => decide (r.message_id ∈ vec.map (·.message_id)))).map
          (fun r => (r.message_id, r.relevance_score))) :=
      ((List.perm_insertionSort relDesc _).filter _).map _
    have h2 : ((((unionIds fts vec).filterMap (mkCombined fts vec 1)).filter
        (fun r => decide (r.message_id ∈ vec.map (·.message_id)))))
        = ((unionIds fts vec).filter
            (fun i => decide (i ∈ vec.map (·.message_id)))).filterMap
          (mkCombined fts vec 1) :=
      filterMap_filter_comm (mkCombined fts vec 1) (·.message_id)
        (fun i => decide (i ∈ vec.map (·.message_id)))
        (fun i r h => mkCombined_mid fts vec 1 i r h) _
    have h4 : ((((unionIds fts vec).filter
        (fun i => decide (i ∈ vec.map (·.message_id)))).filterMap
          (mkCombined fts vec 1)).map
          (fun r => (r.message_id, r.relevance_score))).Perm
        (((vec.map (·.message_id)).filterMap (mkCombined fts vec 1)).map
          (fun r => (r.message_id, r.relevance_score))) :=
      ((unionIds_filter_perm_right fts vec hvn).filterMap _).map _
    have h5 : ((vec.map (·.message_id)).filterMap (mkCombined fts vec 1)).map
          (fun r => (r.message_id, r.relevance_score))
        = vec.map (fun r => (r.message_id, r.relevance_score)) := by
      refine filterMap_keys_map_obs _ _ _ _ vec (fun r hr => ?_)
      rcases mkCombined_alpha1 fts vec hvn r hr with ⟨x, hx, hmid, hsc⟩
      exact ⟨x, hx, by rw [hmid, hsc]⟩
    have h24 : ((((unionIds fts vec).filterMap (mkCombined fts vec 1)).filter
        (fun r => decide (r.message_id ∈ vec.map (·.message_id)))).map
          (fun r => (r.message_id, r.relevance_score))).Perm
        (((vec.map (·.message_id)).filterMap (mkCombined fts vec 1)).map
          (fun r => (r.message_id, r.relevance_score))) := by
      rw [h2]; exact h4
    have h56 : (((vec.map (·.message_id)).filterMap (mkCombined fts vec 1)).map
          (fun r => (r.message_id, r.relevance_score))).Perm
        (vec.map (fun r => (r.message_id, r.relevance_score))) := by
      rw [h5]
    have hperm : (((combineFull fts vec 1).filter
        (fun r => decide (r.message_id ∈ vec.map (·.message_id)))).map
          (fun r => (r.message_id, r.relevance_score))).Perm
        (vec.map (fun r => (r.message_id, r.relevance_score))) :=
      (h1.trans h24).trans h56
    have hweak : (((combineFull fts vec 1).filter
        (fun r => decide (r.message_id ∈ vec.map (·.message_id)))).map
          (fun r => (r.message_id, r.relevance_score))).Pairwise
        (fun a b => b.2 ≤ a.2) := by
      refine List.Pairwise.map _ (fun a b h => h) ?_
      exact (List.sorted_insertionSort relDesc _).filter _
    have hstrict : (vec.map (fun r => (r.message_id, r.relevance_score))).Pairwise
        (fun a b => b.2 < a.2) :=
      List.Pairwise.map _ (fun a b h => h) hv
    have heq := eq_of_perm_of_key_sorted (Prod.snd)
      (vec.map (fun r => (r.message_id, r.relevance_score))) _ hperm hstrict hweak
    have := congrArg (List.map Prod.fst) heq
    simpa [List.map_map, Function.comp] using this
  · -- alpha = 0.5 concrete ranking
    decide

/-- Witness for C2 at concrete strictly-ranked candidate lists. -/
theorem C2_fusion_degenerate_witness :
    (combineFull [⟨"x", "c", "cx", 3⟩, ⟨"y", "c", "cy", 2⟩]
        [⟨"y", "c", "cy", 5⟩, ⟨"z", "c", "cz", 1⟩] 0).filter
        (fun r => decide (r.message_id ∈
          ([⟨"x", "c", "cx", 3⟩, ⟨"y", "c", "cy", 2⟩] : List SR).map (·.message_id)))
      = [⟨"x", "c", "cx", 3⟩, ⟨"y", "c", "cy", 2⟩]
    ∧ ((combineFull [⟨"x", "c", "cx", 3⟩, ⟨"y", "c", "cy", 2⟩]
        [⟨"y", "c", "cy", 5⟩, ⟨"z", "c", "cz", 1⟩] 1).filter
        (fun r => decide (r.message_id ∈
          ([⟨"y", "c", "cy", 5⟩, ⟨"z", "c", "cz", 1⟩] : List SR).map (·.message_id)))).map
          (·.message_id)
      = ([⟨"y", "c", "cy", 5⟩, ⟨"z", "c", "cz", 1⟩] : List SR).map (·.message_id)
    ∧ (combine_search_results [⟨"A", "c1", "lex only", 0.8⟩]
          [⟨"B", "c2", "sem only", 0.6⟩] 0.5 10).map
          (fun r => (r.message_id, r.relevance_score))
        = [("A", 0.4), ("B", 0.3)] :=
  C2_fusion_degenerate
    [⟨"x", "c", "cx", 3⟩, ⟨"y", "c", "cy", 2⟩]
    [⟨"y", "c", "cy", 5⟩, ⟨"z", "c", "cz", 1⟩]
    (by decide) (by decide) (by decide) (by decide)

/-- Claim C8: `vector_search` returns the empty result list for every query,
pagination and filter combination (the source returns `[]` unconditionally —
the embedding subsystem is never available — and raises nothing), so in
particular it does so whenever the embedding subsystem is unavailable. -/
theorem C8_vector_search_degraded (query : String) (limit offset : ℕ) (threshold : ℚ) :
    vector_search query limit offset threshold = [] := rfl

/-- Counterexample to claim C7 as stated: against the deterministic
25-result corpus, hybrid search with `limit = 10, offset = 10` returns the
empty list, while positions 11-20 of the full fused ranking are non-empty —
the fused list is truncated to `limit` before the offset slice, so the page
is not "ranked results 11-20". -/
theorem C7_hybrid_pagination_counterexample :
    hybrid_search ranked25 "q" 10 10 0.5 0 = []
    ∧ ((combineFull (full_text_search ranked25 (10 * 2) 0)
          (vector_search "q" (10 * 2) 0 0) 0.5).drop 10).take 10 ≠ []
    ∧ hybrid_search ranked25 "q" 10 10 0.5 0
        ≠ ((combineFull (full_text_search ranked25 (10 * 2) 0)
          (vector_search "q" (10 * 2) 0 0) 0.5).drop 10).take 10 := by
  refine ⟨?_, ?_, ?_⟩
  · decide
  · decide
  · decide

/-- Claim C7, amended: lexical search returns at most `limit` results and is
exactly the `(offset, limit)` window of the full ranked formatted set;
hybrid search also returns at most `limit` results, but the fused list is
truncated to `limit` before the `[offset:offset+limit]` slice, so every
hybrid page with `offset ≥ limit` is empty; at `offset = 0` hybrid returns
the fused truncated list; and two lexical pages whose windows do not overlap
are disjoint whenever the ranked corpus has distinct message ids (in
particular `limit=10, offset=0` and `limit=10, offset=10` over the
25-result corpus). -/
theorem C7_pagination_amended (ranked : List MsgRow) (q : String)
    (limit offset o1 o2 : ℕ) (alpha th : ℚ) :
    full_text_search ranked limit offset
        = ((formatSearchResults ranked).drop offset).take limit
    ∧ (full_text_search ranked limit offset).length ≤ limit
    ∧ (hybrid_search ranked q limit offset alpha th).length ≤ limit
    ∧ (limit ≤ offset → hybrid_search ranked q limit offset alpha th = [])
    ∧ hybrid_search ranked q limit 0 alpha th
        = combine_search_results (full_text_search ranked (limit * 2) 0)
            (vector_search q (limit * 2) 0 th) alpha limit
    ∧ (o1 + limit ≤ o2 → ((formatSearchResults ranked).map (·.message_id)).Nodup →
        ∀ r1 ∈ full_text_search ranked limit o1,
          ∀ r2 ∈ full_text_search ranked limit o2,
            r1.message_id ≠ r2.message_id) := by
  have hwin : full_text_search ranked limit offset
      = ((formatSearchResults ranked).drop offset).take limit := by
    rw [full_text_search, formatSearchResults, formatSearchResults,
      List.map_take, List.map_drop]
  refine ⟨hwin, ?_, ?_, ?_, ?_, ?_⟩
  · rw [hwin, List.length_take]
    exact min_le_left _ _
  · rw [hybrid_search, List.length_take]
    exact min_le_left _ _
  · intro hle
    rw [hybrid_search]
    have hlen : (combine_search_results (full_text_search ranked (limit * 2) 0)
        (vector_search q (limit * 2) 0 th) alpha limit).length ≤ limit := by
      rw [combine_search_results, List.length_take]
      exact min_le_left _ _
    rw [List.drop_eq_nil_of_le (le_trans hlen hle)]
    exact List.take_nil
  · rw [hybrid_search, List.drop_zero, combine_search_results, List.take_take]
    rw [min_self]
  · intro hsep hnd r1 hr1 r2 hr2 heq
    have hw1 : full_text_search ranked limit o1
        = ((formatSearchResults ranked).drop o1).take limit := by
      rw [full_text_search, formatSearchResults, formatSearchResults,
        List.map_take, List.map_drop]
    have hw2 : full_text_search ranked limit o2
        = ((formatSearchResults ranked).drop o2).take limit := by
      rw [full_text_search, formatSearchResults, formatSearchResults,
        List.map_take, List.map_drop]
    set F := formatSearchResults ranked with hF
    set ids := F.map (·.message_id) with hids
    -- the id of r1 lies in the first o2 ids
    have h1 : r1.message_id ∈ ids.take o2 := by
      have hmem : r1.message_id ∈ ((F.drop o1).take limit).map (·.message_id) := by
        rw [← hw1]
        exact List.mem_map_of_mem _ hr1
      rw [List.map_take, List.map_drop, ← hids] at hmem
      have hrw : (ids.drop o1).take limit = (ids.take (o1 + limit)).drop o1 := by
        rw [List.drop_take, Nat.add_sub_cancel_left]
      rw [hrw] at hmem
      have hsub : List.Sublist ((ids.take (o1 + limit)).drop o1) (ids.take o2) :=
        List.Sublist.trans (List.drop_sublist _ _)
          ((List.take_prefix_take_left ids hsep).sublist)
      exact hsub.subset hmem
    -- the id of r2 lies in the ids after the first o2
    have h2 : r2.message_id ∈ ids.drop o2 := by
      have hmem : r2.message_id ∈ ((F.drop o2).take limit).map (·.message_id) := by
        rw [← hw2]
        exact List.mem_map_of_mem _ hr2
      rw [List.map_take, List.map_drop, ← hids] at hmem
      exact (List.take_sublist _ _).subset hmem
    have hdisj : (ids.take o2).Disjoint (ids.drop o2) := by
      have hnd2 := hnd
      rw [← List.take_append_drop o2 ids] at hnd2
      exact List.disjoint_of_nodup_append hnd2
    exact hdisj h1 (heq ▸ h2)

/-- Witness for the amended C7 at the 25-result corpus with
`limit = 10`: the `offset = 10` hybrid page is empty and the two lexical
pages `offset = 0` and `offset = 10` are disjoint. -/
theorem C7_pagination_amended_witness :
    hybrid_search ranked25 "q" 10 10 0.5 0 = []
    ∧ (∀ r1 ∈ full_text_search ranked25 10 0,
        ∀ r2 ∈ full_text_search ranked25 10 10,
          r1.message_id ≠ r2.message_id) := by
  refine ⟨?_, ?_⟩
  · exact (C7_pagination_amended ranked25 "q" 10 10 0 10 0.5 0).2.2.2.1 (by decide)
  · exact (C7_pagination_amended ranked25 "q" 10 0 0 10 0.5 0).2.2.2.2.2
      (by decide) (by decide)

/-! ### Helper lemmas: the message loop -/

theorem processMessage_err_stick (u : String) (cid : ℕ) (s : MsgState) (m : JVal)
    (h : s.err.isSome) : processMessage u cid s m = s := by
  rw [processMessage, if_pos h]

theorem foldl_err_stick (u : String) (cid : ℕ) :
    ∀ (msgs : List JVal) (s : MsgState), s.err.isSome →
      msgs.foldl (processMessage u cid) s = s := by
  intro msgs
  induction msgs with
  | nil => intro s _; rfl
  | cons m rest ih =>
      intro s h
      rw [List.foldl_cons, processMessage_err_stick u cid s m h, ih s h]

theorem foldl_err_none (u : String) (cid : ℕ) (msgs : List JVal) (s : MsgState)
    (h : (msgs.foldl (processMessage u cid) s).err = none) : s.err = none := by
  by_contra hne
  rw [foldl_err_stick u cid msgs s (Option.ne_none_iff_isSome.mp hne)] at h
  exact hne h

theorem updateFirst_ok (cur : Option PyDateTime) (t : PyDateTime)
    (f : Option PyDateTime) (h : updateFirst cur t = .ok f) : f = minStep cur t := by
  cases cur with
  | none =>
      simp only [updateFirst] at h
      cases h
      rfl
  | some a =>
      simp only [updateFirst, pyLtDT] at h
      by_cases haw : t.aware = a.aware
      · rw [if_pos haw] at h
        by_cases hlt : t.sec < a.sec
        · rw [decide_eq_true hlt] at h
          cases h
          simp [minStep, hlt]
        · rw [decide_eq_false hlt] at h
          cases h
          simp [minStep, hlt]
      · rw [if_neg haw] at h
        cases h

theorem updateLast_ok (cur : Option PyDateTime) (t : PyDateTime)
    (l : Option PyDateTime) (h : updateLast cur t = .ok l) : l = maxStep cur t := by
  cases cur with
  | none =>
      simp only [updateLast] at h
      cases h
      rfl
  | some a =>
      simp only [updateLast, pyGtDT, pyLtDT] at h
      by_cases haw : a.aware = t.aware
      · rw [if_pos haw] at h
        by_cases hlt : a.sec < t.sec
        · rw [decide_eq_true hlt] at h
          cases h
          simp [maxStep, hlt]
        · rw [decide_eq_false hlt] at h
          cases h
          simp [maxStep, hlt]
      · rw [if_neg haw] at h
        cases h

theorem extractableContent_obj (m : JVal) (c : String)
    (hm : extractableContent m = some c) :
    m.isObj = true ∧ extract_message_content m = some c ∧ c ≠ "" := by
  unfold extractableContent at hm
  by_cases hobj : m.isObj
  · rw [if_pos hobj] at hm
    rcases hx : extract_message_content m with _ | c'
    · rw [hx] at hm; cases hm
    · rw [hx] at hm
      change (if c' = "" then none else some c') = some c at hm
      by_cases hc : c' = ""
      · rw [if_pos hc] at hm; cases hm
      · rw [if_neg hc] at hm
        cases hm
        exact ⟨hobj, rfl, hc⟩
  · rw [if_neg hobj] at hm
    cases hm

theorem processMessage_not_counted (u : String) (cid : ℕ) (s : MsgState) (m : JVal)
    (hm : extractableContent m = none)
    (h2 : (processMessage u cid s m).err = none) :
    processMessage u cid s m = s := by
  rcases hserr : s.err with _ | e
  · by_cases hobj : m.isObj
    · rcases hx : extract_message_content m with _ | c
      · exfalso
        have : (processMessage u cid s m).err = some "TypeError: parts not iterable" := by
          simp [processMessage, hserr, hobj, hx]
        rw [this] at h2
        cases h2
      · have hc : c = "" := by
          unfold extractableContent at hm
          rw [if_pos hobj, hx] at hm
          change (if c = "" then none else some c) = none at hm
          by_cases hc : c = ""
          · exact hc
          · rw [if_neg hc] at hm; cases hm
        simp [processMessage, hserr, hobj, hx, hc]
    · simp [processMessage, hserr, hobj]
  · exact processMessage_err_stick u cid s m (by rw [hserr]; rfl)

theorem processMessage_counted (u : String) (cid : ℕ) (s : MsgState) (m : JVal)
    (c : String) (hs : s.err = none) (hm : extractableContent m = some c)
    (h2 : (processMessage u cid s m).err = none) :
    (processMessage u cid s m).stats.messages_processed
        = s.stats.messages_processed + 1
    ∧ (processMessage u cid s m).stats.conversations_processed
        = s.stats.conversations_processed
    ∧ (processMessage u cid s m).cnt = s.cnt + 1
    ∧ (processMessage u cid s m).wc = s.wc + countWords c
    ∧ (processMessage u cid s m).firstDt
        = (match parseCreateTime m with
           | none => s.firstDt
           | some t => minStep s.firstDt t)
    ∧ (processMessage u cid s m).lastDt
        = (match parseCreateTime m with
           | none => s.lastDt
           | some t => maxStep s.lastDt t) := by
  obtain ⟨hobj, hx, hcne⟩ := extractableContent_obj m c hm
  rcases hts : parseCreateTime m with _ | t
  · refine ⟨?_, ?_, ?_, ?_, ?_, ?_⟩ <;>
      simp [processMessage, hs, hobj, hx, hcne, hts]
  · rcases hf : updateFirst s.firstDt t with e | f
    · exfalso
      have : (processMessage u cid s m).err = some e := by
        simp [processMessage, hs, hobj, hx, hcne, hts, hf]
      rw [this] at h2
      cases h2
    · rcases hl : updateLast s.lastDt t with e | l
      · exfalso
        have : (processMessage u cid s m).err = some e := by
          simp [processMessage, hs, hobj, hx, hcne, hts, hf, hl]
        rw [this] at h2
        cases h2
      · have hfm := updateFirst_ok s.firstDt t f hf
        have hlm := updateLast_ok s.lastDt t l hl
        refine ⟨?_, ?_, ?_, ?_, ?_, ?_⟩ <;>
          simp [processMessage, hs, hobj, hx, hcne, hts, hf, hl,
            hfm, hlm]

theorem foldMsgs_spec (u : String) (cid : ℕ) :
    ∀ (msgs : List JVal) (s : MsgState),
      (msgs.foldl (processMessage u cid) s).err = none →
      (msgs.foldl (processMessage u cid) s).stats.messages_processed
          = s.stats.messages_processed + countedMsgs msgs
      ∧ (msgs.foldl (processMessage u cid) s).stats.conversations_processed
          = s.stats.conversations_processed
      ∧ (msgs.foldl (processMessage u cid) s).cnt = s.cnt + countedMsgs msgs
      ∧ (msgs.foldl (processMessage u cid) s).wc = s.wc + sumWords msgs
      ∧ (msgs.foldl (processMessage u cid) s).firstDt
          = (tsListOf msgs).foldl minStep s.firstDt
      ∧ (msgs.foldl (processMessage u cid) s).lastDt
          = (tsListOf msgs).foldl maxStep s.lastDt := by
  intro msgs
  induction msgs with
  | nil =>
      intro s _
      simp [countedMsgs, sumWords, tsListOf]
  | cons m rest ih =>
      intro s h
      rw [List.foldl_cons] at h
      have hs'err : (processMessage u cid s m).err = none :=
        foldl_err_none u cid rest _ h
      have hserr : s.err = none := by
        by_contra hne
        rw [processMessage_err_stick u cid s m
          (Option.ne_none_iff_isSome.mp hne)] at hs'err
        exact hne hs'err
      rcases hext : extractableContent m with _ | c
      · have heq := processMessage_not_counted u cid s m hext hs'err
        rw [List.foldl_cons, heq]
        rw [heq] at h
        have hcnt : countedMsgs (m :: rest) = countedMsgs rest := by
          simp [countedMsgs, List.filterMap_cons, hext]
        have hsw : sumWords (m :: rest) = sumWords rest := by
          simp [sumWords, List.filterMap_cons, hext]
        have hts : tsListOf (m :: rest) = tsListOf rest := by
          simp [tsListOf, List.filterMap_cons, hext]
        rw [hcnt, hsw, hts]
        exact ih s h
      · obtain ⟨h1, h2c, h3, h4, h5, h6⟩ :=
          processMessage_counted u cid s m c hserr hext hs'err
        rw [List.foldl_cons]
        obtain ⟨i1, i2, i3, i4, i5, i6⟩ := ih (processMessage u cid s m) h
        have hcnt : countedMsgs (m :: rest) = countedMsgs rest + 1 := by
          simp [countedMsgs, List.filterMap_cons, hext]
        have hsw : sumWords (m :: rest) = countWords c + sumWords rest := by
          simp [sumWords, List.filterMap_cons, hext]
        have hts : tsListOf (m :: rest)
            = (match parseCreateTime m with
               | none => tsListOf rest
               | some t => t :: tsListOf rest) := by
          rcases hp : parseCreateTime m with _ | t
          · simp [tsListOf, List.filterMap_cons, hext, hp]
          · simp [tsListOf, List.filterMap_cons, hext, hp]
        refine ⟨?_, ?_, ?_, ?_, ?_, ?_⟩
        · rw [i1, h1, hcnt]; omega
        · rw [i2, h2c]
        · rw [i3, h3, hcnt]; omega
        · rw [i4, h4, hsw]; omega
        · rw [i5, h5, hts]
          rcases hp : parseCreateTime m with _ | t
          · rfl
          · rw [List.foldl_cons]
        · rw [i6, h6, hts]
          rcases hp : parseCreateTime m with _ | t
          · rfl
          · rw [List.foldl_cons]

/-- Claim C6: for every ingested conversation, when no exception interrupts
the pass, the contribution to `messages_processed` is exactly the number N
of messages with extractable non-empty content (unparseable or empty
messages contribute nothing), and the conversation row's word_count and
message_count grow by exactly the sum of those N messages' whitespace-token
counts and by N respectively. -/
theorem C6_message_word_counts (u : String) (row : ConvRow) (msgs : List JVal)
    (store : Store) (stats : Stats)
    (h : (ingestMessages u row msgs store stats).err = none) :
    (ingestMessages u row msgs store stats).stats.messages_processed
        = stats.messages_processed + countedMsgs msgs
    ∧ (ingestMessages u row msgs store stats).row.word_count
        = row.word_count + sumWords msgs
    ∧ (ingestMessages u row msgs store stats).row.message_count
        = row.message_count + countedMsgs msgs := by
  have hspec := foldMsgs_spec u row.id msgs ⟨store, stats, none, none, 0, 0, none⟩
  simp only [ingestMessages] at h ⊢
  rcases hserr : (msgs.foldl (processMessage u row.id)
      ⟨store, stats, none, none, 0, 0, none⟩).err with _ | e
  · obtain ⟨f1, f2, f3, f4, f5, f6⟩ := hspec hserr
    simp only [hserr]
    exact ⟨f1, by simp [f4], by simp [f3]⟩
  · simp [hserr] at h

/-- Witness for C6: a conversation with one countable two-word message, one
empty message and one non-dict message contributes exactly 1 message and 2
words. -/
theorem C6_message_word_counts_witness :
    (ingestMessages "u" c5PrevRow
        [.obj [("content", .str "two words")], .obj [("content", .str "")], .int 7]
        emptyStore emptyStats).stats.messages_processed
      = emptyStats.messages_processed
        + countedMsgs [.obj [("content", .str "two words")],
            .obj [("content", .str "")], .int 7]
    ∧ (ingestMessages "u" c5PrevRow
        [.obj [("content", .str "two words")], .obj [("content", .str "")], .int 7]
        emptyStore emptyStats).row.word_count
      = c5PrevRow.word_count
        + sumWords [.obj [("content", .str "two words")],
            .obj [("content", .str "")], .int 7]
    ∧ (ingestMessages "u" c5PrevRow
        [.obj [("content", .str "two words")], .obj [("content", .str "")], .int 7]
        emptyStore emptyStats).row.message_count
      = c5PrevRow.message_count
        + countedMsgs [.obj [("content", .str "two words")],
            .obj [("content", .str "")], .int 7] :=
  C6_message_word_counts "u" c5PrevRow
    [.obj [("content", .str "two words")], .obj [("content", .str "")], .int 7]
    emptyStore emptyStats (by decide)

/-- Claim C5, amended: after an exception-free ingestion pass, the stored
first timestamp is the previously stored one when it was non-null and
otherwise the pass minimum, and the stored last timestamp is the pass
maximum when the pass has one and otherwise the previously stored value —
an `or`-fallback on each side, not a `min`/`max`; a pass with zero parsed
timestamps leaves both bounds unchanged. -/
theorem C5_timestamp_amended (u : String) (row : ConvRow) (msgs : List JVal)
    (store : Store) (stats : Stats)
    (h : (ingestMessages u row msgs store stats).err = none) :
    (ingestMessages u row msgs store stats).row.first_message_date
        = (match row.first_message_date with
           | some f => some f
           | none => specMin (tsListOf msgs))
    ∧ (ingestMessages u row msgs store stats).row.last_message_date
        = (match specMax (tsListOf msgs) with
           | some l => some l
           | none => row.last_message_date)
    ∧ (tsListOf msgs = [] →
        (ingestMessages u row msgs store stats).row.first_message_date
            = row.first_message_date
        ∧ (ingestMessages u row msgs store stats).row.last_message_date
            = row.last_message_date) := by
  have hspec := foldMsgs_spec u row.id msgs ⟨store, stats, none, none, 0, 0, none⟩
  simp only [ingestMessages] at h ⊢
  rcases hserr : (msgs.foldl (processMessage u row.id)
      ⟨store, stats, none, none, 0, 0, none⟩).err with _ | e
  · obtain ⟨f1, f2, f3, f4, f5, f6⟩ := hspec hserr
    simp only [hserr]
    refine ⟨by simp [f5, specMin], by simp [f6, specMax], fun hempty => ?_⟩
    constructor
    · simp [f5, hempty]
      cases row.first_message_date <;> rfl
    · simp [f6, hempty]
  · simp [hserr] at h

/-- Witness for the amended C5: a stored first of 100 survives a pass with
minimum 50, and the pass maximum 150 overwrites a stored last of 200. -/
theorem C5_timestamp_amended_witness :
    (ingestMessages "u" c5PrevRow
        [.obj [("content", .str "hi"), ("create_time", .int 50)],
         .obj [("content", .str "yo"), ("create_time", .int 150)]]
        emptyStore emptyStats).row.first_message_date
      = (match c5PrevRow.first_message_date with
         | some f => some f
         | none => specMin (tsListOf
            [.obj [("content", .str "hi"), ("create_time", .int 50)],
             .obj [("content", .str "yo"), ("create_time", .int 150)]]))
    ∧ (ingestMessages "u" c5PrevRow
        [.obj [("content", .str "hi"), ("create_time", .int 50)],
         .obj [("content", .str "yo"), ("create_time", .int 150)]]
        emptyStore emptyStats).row.last_message_date
      = (match specMax (tsListOf
            [.obj [("content", .str "hi"), ("create_time", .int 50)],
             .obj [("content", .str "yo"), ("create_time", .int 150)]]) with
         | some l => some l
         | none => c5PrevRow.last_message_date) :=
  ⟨(C5_timestamp_amended "u" c5PrevRow _ emptyStore emptyStats
      (by decide)).1,
   (C5_timestamp_amended "u" c5PrevRow _ emptyStore emptyStats
      (by decide)).2.1⟩

/-- Counterexample to claim C5 as stated: re-ingesting `c5Input` over a
conversation stored with first 100 / last 200, a pass with timestamps
ranging 50..150, leaves first = 100 (not `min(100, 50) = 50`) and sets
last = 150 (not `max(200, 150) = 200`). -/
theorem C5_timestamp_counterexample :
    (process_chatgpt_export_json c5Input "u" c5Store emptyStats).1.conversations.map
        (fun c => (c.first_message_date, c.last_message_date))
      = [(some ⟨100, false⟩, some ⟨150, false⟩)]
    ∧ specMin (tsListOf
        [.obj [("content", .str "hi"), ("create_time", .int 50)],
         .obj [("content", .str "yo"), ("create_time", .int 150)]]) = some ⟨50, false⟩
    ∧ specMax (tsListOf
        [.obj [("content", .str "hi"), ("create_time", .int 50)],
         .obj [("content", .str "yo"), ("create_time", .int 150)]]) = some ⟨150, false⟩
    ∧ (some (⟨100, false⟩ : PyDateTime) ≠ some (⟨50, false⟩ : PyDateTime))
    ∧ (some (⟨150, false⟩ : PyDateTime) ≠ some (⟨200, false⟩ : PyDateTime)) := by
  refine ⟨?_, ?_, ?_, ?_, ?_⟩ <;>
    decide

/-- Claim C3, amended: the content extractor maps a `parts` object to the
space-joined parts, a plain string to itself, a `text` object to its text,
and a heterogeneous list to its stringified space-joined items; and every
message whose extracted content is the EMPTY string is skipped — the loop
state (counters and store) is returned unchanged.  (Whitespace-only
non-empty content is counted and stored; see the counterexample.) -/
theorem C3_extraction_amended :
    extract_message_content
        (.obj [("content", .obj [("parts", .arr [.str "a", .str "b"])])]) = some "a b"
    ∧ extract_message_content (.obj [("content", .str "hello")]) = some "hello"
    ∧ extract_message_content (.obj [("content", .obj [("text", .str "x")])]) = some "x"
    ∧ extract_message_content (.obj [("content", .arr [.int 1, .str "two"])]) = some "1 two"
    ∧ ∀ (u : String) (cid : ℕ) (s : MsgState) (m : JVal),
        extract_message_content m = some "" → processMessage u cid s m = s := by
  refine ⟨by decide, by decide, by decide, by decide, ?_⟩
  intro u cid s m hx
  rcases hserr : s.err with _ | e
  · by_cases hobj : m.isObj
    · simp [processMessage, hserr, hobj, hx]
    · simp [processMessage, hserr, hobj]
  · exact processMessage_err_stick u cid s m (by rw [hserr]; rfl)

/-- Witness for the amended C3: a message whose content field is the empty
string extracts to `""` and leaves the loop state untouched. -/
theorem C3_extraction_amended_witness :
    processMessage "u" 0 ⟨emptyStore, emptyStats, none, none, 0, 0, none⟩
        (.obj [("content", .str "")])
      = ⟨emptyStore, emptyStats, none, none, 0, 0, none⟩ :=
  C3_extraction_amended.2.2.2.2 "u" 0
    ⟨emptyStore, emptyStats, none, none, 0, 0, none⟩
    (.obj [("content", .str "")]) (by decide)

/-- Counterexample to claim C3 as stated: the message whose content is the
whitespace-only string `" "` extracts to `" "` (non-empty, every character
whitespace), yet ingesting it counts it in `messages_processed` and stores
a message row with content `" "` — whitespace-only content is NOT skipped,
only the empty string is. -/
theorem C3_whitespace_counterexample :
    extract_message_content (.obj [("content", .str " ")]) = some " "
    ∧ (" " : String) ≠ ""
    ∧ (∀ ch ∈ (" " : String).data, ch.isWhitespace)
    ∧ (process_chatgpt_export_json c3WhitespaceInput "u" emptyStore
        emptyStats).2.messages_processed = 1
    ∧ (process_chatgpt_export_json c3WhitespaceInput "u" emptyStore
        emptyStats).1.messages.map (·.content) = [" "] := by
  refine ⟨by decide, by decide, by decide, ?_, ?_⟩ <;>
    decide

/-- Claim C4 against the code: a chatgpt conversation none of whose messages
has extractable content is still counted in `conversations_processed` (its
message list is non-empty) and a conversation row is still persisted (the
row is created and flushed before the message check); a Claude conversation
with an empty message list is also counted.  The claim says such
conversations are skipped entirely. -/
theorem C4_empty_conversation_eval :
    (process_chatgpt_export_json c4ChatgptInput "u" emptyStore
        emptyStats).2.conversations_processed = 1
    ∧ (process_chatgpt_export_json c4ChatgptInput "u" emptyStore
        emptyStats).1.conversations.length = 1
    ∧ (process_chatgpt_export_json c4ChatgptInput "u" emptyStore
        emptyStats).2.messages_processed = 0
    ∧ (process_claude_json c4ClaudeInput emptyStats).conversations_processed = 1
    ∧ (process_claude_json c4ClaudeInput emptyStats).messages_processed = 0 := by
  refine ⟨?_, ?_, ?_, ?_, ?_⟩ <;>
    decide

/-- Claim C9: the message timestamp value parser accepts epoch-numeric
seconds (every in-range rational) and ISO-8601 strings with a trailing `Z`
normalised to `+00:00`; the epoch `1700000000` and the string
`"2023-11-14T22:13:20Z"` parse to the same instant (equal epoch seconds,
the numeric one naive, the string one aware); and unparseable values —
garbage strings, or values that are neither numeric nor string — yield
`none` (the message is stored with a null timestamp), never an error. -/
theorem C9_timestamp_parsing :
    parseCreateTime (.obj [("create_time", .int 1700000000)])
        = some ⟨1700000000, false⟩
    ∧ parseCreateTime (.obj [("create_time", .str "2023-11-14T22:13:20Z")])
        = some ⟨1700000000, true⟩
    ∧ (parseCreateTime (.obj [("create_time", .int 1700000000)])).map (·.sec)
        = (parseCreateTime
            (.obj [("create_time", .str "2023-11-14T22:13:20Z")])).map (·.sec)
    ∧ parseCreateTime (.obj [("create_time", .str "not-a-date")]) = none
    ∧ (∀ q : ℚ, -62135596800 ≤ q → q < 253402300800 →
        parseTsValue (.float q) = some ⟨q, false⟩)
    ∧ parseTsValue .null = none
    ∧ (∀ l, parseTsValue (.arr l) = none)
    ∧ (∀ o, parseTsValue (.obj o) = none) := by
  refine ⟨?_, ?_, ?_, ?_, ?_, rfl, fun _ => rfl, fun _ => rfl⟩
  · decide
  · decide
  · decide
  · decide
  · intro q h1 h2
    simp [parseTsValue, utcfromtimestamp, h1, h2]

/-- Witness for C9 at the in-range float epoch 1700000000.0. -/
theorem C9_timestamp_parsing_witness :
    parseTsValue (.float 1700000000) = some ⟨1700000000, false⟩ :=
  C9_timestamp_parsing.2.2.2.2.1 1700000000
    (by decide)
    (by decide)

/-- Claim C10, amended: for a `.json` file, `validate_file` decides validity
from only the first 1024 characters of the file — `is_valid` is true exactly
when that sample alone parses as a complete JSON document, and two files
sharing a 1024-character sample validate identically; an invalid verdict
comes with the warning string; `validate_file` itself is total (every
exception is caught).  However a well-formed JSON export longer than 1024
characters whose sample happens to parse on its own (e.g. a long number) is
reported VALID, contrary to the claim's consequence clause — see the
counterexample. -/
theorem C10_validate_amended (c1 c2 c : String) :
    (c1.data.take 1024 = c2.data.take 1024 →
      (validate_json_file c1).is_valid = (validate_json_file c2).is_valid)
    ∧ (validate_json_file c).is_valid = pyJsonValid (String.mk (c.data.take 1024))
    ∧ ((validate_json_file c).is_valid = false →
        "File does not appear to be valid JSON" ∈ (validate_json_file c).warnings) := by
  have key : ∀ s : String,
      (validate_json_file s).is_valid = pyJsonValid (String.mk (s.data.take 1024)) := by
    intro s
    unfold validate_json_file
    by_cases hp : pyJsonValid (String.mk (s.data.take 1024))
    · rw [if_pos hp, hp]
    · rw [if_neg hp]
      simp [hp]
  refine ⟨?_, key c, ?_⟩
  · intro hpre
    rw [key c1, key c2, hpre]
  · intro hval
    unfold validate_json_file at hval ⊢
    by_cases hp : pyJsonValid (String.mk (c.data.take 1024))
    · rw [if_pos hp] at hval
      cases hval
    · rw [if_neg hp]
      simp

/-- Witness for the amended C10: the truncated document `"["` is reported
invalid with the warning attached, and its verdict matches the sample
parse. -/
theorem C10_validate_amended_witness :
    (validate_json_file "[").is_valid
        = pyJsonValid (String.mk (("[" : String).data.take 1024))
    ∧ "File does not appear to be valid JSON" ∈ (validate_json_file "[").warnings :=
  ⟨(C10_validate_amended "[" "[" "[").2.1,
   (C10_validate_amended "[" "[" "[").2.2 (by decide)⟩

/-- Counterexample to claim C10 as stated: `longOnes` — 1025 copies of the
digit 1 — is a well-formed JSON document longer than 1024 bytes, yet
`validate_file` reports it VALID, because its 1024-character sample is
itself a complete JSON number; the claim's consequence that every
well-formed export longer than 1024 bytes is reported invalid is false. -/
theorem C10_prefix_valid_counterexample :
    longOnes.length = 1025
    ∧ pyJsonValid longOnes = true
    ∧ (validate_json_file longOnes).is_valid = true := by
  refine ⟨by decide, ?_, ?_⟩ <;>
    decide
